import Mathlib

/-!
Shallow embedding of the hotel reservation system
(`reservation_system/models.py`, `managers.py`, `persistence.py`).

Python strings are Lean `String`s (character sequences where splitting
matters), Python `int` is `Int`, a raised `ValueError` is `none` /
`Except.error`, and each manager's mutable state (`dict` keyed by the
entity id, plus the JSON file contents) is threaded explicitly as a
record of lists.  A Python `dict` is modelled as a list in insertion
order with unique keys: `d[k] = v` replaces in place when the key is
present and appends otherwise, and `d.get(k)` is `find?` on the key.
-/

/-! ### Generic keyed-collection helpers (Python dict semantics) -/

def findKeyed {α : Type} (key : α → String) (l : List α) (s : String) : Option α :=
  l.find? (fun x => key x == s)

def insertKeyed {α : Type} (key : α → String) (l : List α) (a : α) : List α :=
  if l.any (fun x => key x == key a) then
    l.map (fun x => if key x == key a then a else x)
  else l ++ [a]

def replaceKeyed {α : Type} (key : α → String) (l : List α) (s : String) (a : α) : List α :=
  l.map (fun x => if key x == s then a else x)

/-- The whitespace set of Python's `str.strip()` (ASCII part). -/
def isPySpace (c : Char) : Bool :=
  c == ' ' || c == '\t' || c == '\n' || c == '\r' ||
  c == Char.ofNat 11 || c == Char.ofNat 12

/-- Truthiness test `not s.strip()`: `s.strip()` is empty exactly when
every character of `s` is whitespace. -/
def pyStripEmpty (s : String) : Bool := s.data.all isPySpace

/-! ### Hotel (`models.py`, class Hotel) -/

structure Hotel where
  name : String
  address : String
  total_rooms : Int
  rooms_available : Int
  hotel_id : String
deriving Repr, DecidableEq

/-- Embeds `Hotel.validate`: `True` means the checks pass, `False` means
`ValueError` is raised.  The `isinstance` checks are vacuous here
because the fields are typed. -/
def Hotel.validateB (h : Hotel) : Bool :=
  !(pyStripEmpty h.name) && !(pyStripEmpty h.address) &&
  decide (0 < h.total_rooms) && decide (0 ≤ h.rooms_available) &&
  decide (h.rooms_available ≤ h.total_rooms)

/-- The `Hotel(...)` constructor together with `__post_init__`:
`rooms_available == -1` (the default) is replaced by `total_rooms`,
then `validate` runs; `none` models the `ValueError` escaping. -/
def mkHotel (name address : String) (total_rooms rooms_available : Int)
    (hotel_id : String) : Option Hotel :=
  let ra := if rooms_available = -1 then total_rooms else rooms_available
  let h : Hotel := ⟨name, address, total_rooms, ra, hotel_id⟩
  if h.validateB then some h else none

/-- A stored hotel record (a JSON object); `none` marks a missing key. -/
structure HotelRecord where
  name : Option String
  address : Option String
  total_rooms : Option Int
  rooms_available : Option Int
  hotel_id : Option String
deriving Repr, DecidableEq

def Hotel.toDict (h : Hotel) : HotelRecord :=
  ⟨some h.name, some h.address, some h.total_rooms,
   some h.rooms_available, some h.hotel_id⟩

/-- Embeds `Hotel.from_dict`: requires name, address, total_rooms, hotel_id;
`rooms_available` defaults to `total_rooms` via `data.get`; the result
goes through the constructor (hence `__post_init__` and `validate`). -/
def Hotel.fromDict (r : HotelRecord) : Option Hotel :=
  match r.name, r.address, r.total_rooms, r.hotel_id with
  | some n, some a, some t, some hid =>
      mkHotel n a t (r.rooms_available.getD t) hid
  | _, _, _, _ => none

/-! ### HotelManager (`managers.py`) -/

structure HotelMgr where
  hotels : List Hotel
  store : List HotelRecord
deriving Repr, DecidableEq

/-- One iteration of `HotelManager._load`'s loop: parse the record and
insert it, or print a warning and skip it. -/
def loadStep (acc : List Hotel) (r : HotelRecord) : List Hotel :=
  match Hotel.fromDict r with
  | some h => insertKeyed Hotel.hotel_id acc h
  | none => acc

/-- Embeds `HotelManager._load`: rebuild the collection from the stored records,
skipping records that fail to parse. -/
def loadHotels (recs : List HotelRecord) : List Hotel :=
  recs.foldl loadStep []

/-- Embeds `HotelManager._save`: serialise every hotel to the backing store. -/
def HotelMgr.save (m : HotelMgr) : HotelMgr :=
  { m with store := m.hotels.map Hotel.toDict }

def HotelMgr.getHotel (m : HotelMgr) (hid : String) : Option Hotel :=
  findKeyed Hotel.hotel_id m.hotels hid

/-- Embeds `HotelManager.create_hotel`: constructs the `Hotel` (which validates
and may raise), then inserts and saves.  There is no try/except in this
method, so a `ValueError` from validation escapes: `Except.error ()`. -/
def HotelMgr.createHotel (m : HotelMgr) (name address : String)
    (total_rooms : Int) (hotel_id : String) : Except Unit (Hotel × HotelMgr) :=
  match mkHotel name address total_rooms (-1) hotel_id with
  | none => Except.error ()
  | some h =>
      Except.ok (h, HotelMgr.save { m with hotels := insertKeyed Hotel.hotel_id m.hotels h })

/-- The recognised keyword arguments of `HotelManager.modify_hotel`
(unknown fields are ignored with a warning, so they are not modelled). -/
structure HotelUpdate where
  name : Option String
  address : Option String
  total_rooms : Option Int
  rooms_available : Option Int
deriving Repr, DecidableEq

def applyUpdate (h : Hotel) (u : HotelUpdate) : Hotel :=
  { h with
    name := u.name.getD h.name
    address := u.address.getD h.address
    total_rooms := u.total_rooms.getD h.total_rooms
    rooms_available := u.rooms_available.getD h.rooms_available }

/-- Embeds `HotelManager.modify_hotel`: apply the updates, re-validate; on
failure roll back by reloading from the backing store and return `None`;
on success save and return the hotel. -/
def HotelMgr.modifyHotel (m : HotelMgr) (hid : String) (u : HotelUpdate) :
    Option Hotel × HotelMgr :=
  match m.getHotel hid with
  | none => (none, m)
  | some h =>
      let h' := applyUpdate h u
      if h'.validateB then
        (some h', HotelMgr.save { m with hotels := replaceKeyed Hotel.hotel_id m.hotels hid h' })
      else
        (none, { m with hotels := loadHotels m.store })

/-- Embeds `HotelManager.reserve_room`: decrement `rooms_available` if positive. -/
def HotelMgr.reserveRoom (m : HotelMgr) (hid : String) : Bool × HotelMgr :=
  match m.getHotel hid with
  | none => (false, m)
  | some h =>
      if h.rooms_available ≤ 0 then (false, m)
      else
        let hs := replaceKeyed Hotel.hotel_id m.hotels hid
          { h with rooms_available := h.rooms_available - 1 }
        (true, HotelMgr.save { m with hotels := hs })

/-- Embeds `HotelManager.cancel_room`: increment `rooms_available` if below
`total_rooms`. -/
def HotelMgr.cancelRoom (m : HotelMgr) (hid : String) : Bool × HotelMgr :=
  match m.getHotel hid with
  | none => (false, m)
  | some h =>
      if h.rooms_available ≥ h.total_rooms then (false, m)
      else
        let hs := replaceKeyed Hotel.hotel_id m.hotels hid
          { h with rooms_available := h.rooms_available + 1 }
        (true, HotelMgr.save { m with hotels := hs })

/-! ### Customer (`models.py`, class Customer) -/

/-- Python `str.split(sep)` for a one-character separator, on the
character sequence of the string (`"".split("@") == [""]`). -/
def pySplit (c : Char) : List Char → List (List Char)
  | [] => [[]]
  | a :: rest =>
      let r := pySplit c rest
      if a = c then [] :: r
      else (a :: r.headD []) :: r.tail

/-- The email test of `Customer.validate`:
`"@" in email and "." in email.split("@")[-1]`
(`[-1]` is the last element; `split` never returns an empty list). -/
def emailOkL (l : List Char) : Bool :=
  l.contains '@' && ((pySplit '@' l).getLastD []).contains '.'

def emailOk (s : String) : Bool := emailOkL s.data

structure Customer where
  name : String
  email : String
  customer_id : String
deriving Repr, DecidableEq

/-- Embeds `Customer.validate`: `True` iff no `ValueError` is raised. -/
def Customer.validateB (c : Customer) : Bool :=
  !(pyStripEmpty c.name) && emailOk c.email

/-! ### Dates and Reservation (`models.py`, class Reservation) -/

def charDigit (c : Char) : Nat := c.toNat - 48

def isLeap (y : Nat) : Bool := y % 4 == 0 && (y % 100 != 0 || y % 400 == 0)

def daysInMonth (y m : Nat) : Nat :=
  if m == 2 then (if isLeap y then 29 else 28)
  else if m == 4 || m == 6 || m == 9 || m == 11 then 30
  else 31

/-- Embeds `datetime.date.fromisoformat` restricted to the canonical
`YYYY-MM-DD` layout: exactly ten characters, digits and dashes in
place, month/day in range for the (proleptic Gregorian) calendar,
year at least 1.  `none` models the `ValueError` on a bad string. -/
def parseDate (s : String) : Option (Nat × Nat × Nat) :=
  match s.data with
  | [y1, y2, y3, y4, s1, mo1, mo2, s2, d1, d2] =>
      if y1.isDigit && y2.isDigit && y3.isDigit && y4.isDigit &&
         (s1 == '-') && mo1.isDigit && mo2.isDigit && (s2 == '-') &&
         d1.isDigit && d2.isDigit then
        let y := 1000 * charDigit y1 + 100 * charDigit y2 +
                 10 * charDigit y3 + charDigit y4
        let mo := 10 * charDigit mo1 + charDigit mo2
        let d := 10 * charDigit d1 + charDigit d2
        if decide (1 ≤ y) && decide (1 ≤ mo) && decide (mo ≤ 12) &&
           decide (1 ≤ d) && decide (d ≤ daysInMonth y mo) then
          some (y, mo, d)
        else none
      else none
  | _ => none

/-- Embeds `date` comparison `a <= b` (lexicographic on year, month, day). -/
def dateLe (a b : Nat × Nat × Nat) : Bool :=
  decide (a.1 < b.1) ||
  (a.1 == b.1 && (decide (a.2.1 < b.2.1) ||
    (a.2.1 == b.2.1 && decide (a.2.2 ≤ b.2.2))))

structure Reservation where
  customer_id : String
  hotel_id : String
  check_in : String
  check_out : String
  reservation_id : String
deriving Repr, DecidableEq

/-- Embeds `Reservation.validate`: ids non-empty (truthiness of the strings),
both dates parse, and `check_out` strictly after `check_in`. -/
def Reservation.validateB (r : Reservation) : Bool :=
  (r.customer_id != "") && (r.hotel_id != "") &&
  (match parseDate r.check_in, parseDate r.check_out with
   | some ci, some co => !(dateLe co ci)
   | _, _ => false)

/-- The `Reservation(...)` constructor with `__post_init__`:
`none` models the `ValueError` escaping the constructor. -/
def mkReservation (customer_id hotel_id check_in check_out reservation_id : String) :
    Option Reservation :=
  let r : Reservation := ⟨customer_id, hotel_id, check_in, check_out, reservation_id⟩
  if r.validateB then some r else none

structure ResRecord where
  customer_id : Option String
  hotel_id : Option String
  check_in : Option String
  check_out : Option String
  reservation_id : Option String
deriving Repr, DecidableEq

def Reservation.toDict (r : Reservation) : ResRecord :=
  ⟨some r.customer_id, some r.hotel_id, some r.check_in,
   some r.check_out, some r.reservation_id⟩

/-! ### CustomerManager and ReservationManager (`managers.py`) -/

structure CustMgr where
  customers : List Customer
deriving Repr, DecidableEq

def CustMgr.getCustomer (m : CustMgr) (cid : String) : Option Customer :=
  findKeyed Customer.customer_id m.customers cid

structure ResMgr where
  reservations : List Reservation
  store : List ResRecord
  hotelMgr : Option HotelMgr
  customerMgr : Option CustMgr
deriving Repr, DecidableEq

def ResMgr.save (m : ResMgr) : ResMgr :=
  { m with store := m.reservations.map Reservation.toDict }

/-- The customer existence check at the top of
`ReservationManager.create_reservation`: passes when no customer
manager is attached or the customer is found. -/
def ResMgr.custCheck (m : ResMgr) (cid : String) : Bool :=
  match m.customerMgr with
  | none => true
  | some cm => (cm.getCustomer cid).isSome

/-- Embeds `ReservationManager.create_reservation`: check the customer, check
the hotel, reserve a room, construct the reservation (date validation);
on a construction failure release the reserved room back
(compensation) and fail; on success insert and save. -/
def ResMgr.createReservation (m : ResMgr)
    (cid hid ci co rid : String) : Option Reservation × ResMgr :=
  if m.custCheck cid = false then (none, m)
  else
    match m.hotelMgr with
    | some hm =>
        if (hm.getHotel hid).isNone then (none, m)
        else
          let rr := hm.reserveRoom hid
          if rr.1 = false then (none, { m with hotelMgr := some rr.2 })
          else
            match mkReservation cid hid ci co rid with
            | none =>
                (none, { m with hotelMgr := some (rr.2.cancelRoom hid).2 })
            | some r =>
                let rs := insertKeyed Reservation.reservation_id m.reservations r
                let m2 : ResMgr := { m with hotelMgr := some rr.2, reservations := rs }
                (some r, m2.save)
    | none =>
        match mkReservation cid hid ci co rid with
        | none => (none, m)
        | some r =>
            let m2 : ResMgr := { m with
              reservations := insertKeyed Reservation.reservation_id m.reservations r }
            (some r, m2.save)

/-- Embeds `ReservationManager.cancel_reservation`: look up the reservation;
if found, release the room back (best effort: the result of
`cancel_room` is ignored), remove the reservation, save, succeed. -/
def ResMgr.cancelReservation (m : ResMgr) (rid : String) : Bool × ResMgr :=
  match findKeyed Reservation.reservation_id m.reservations rid with
  | none => (false, m)
  | some r =>
      let m1 := match m.hotelMgr with
        | some hm => { m with hotelMgr := some (hm.cancelRoom r.hotel_id).2 }
        | none => m
      let m2 : ResMgr := { m1 with
        reservations := m1.reservations.filter (fun x => !(x.reservation_id == rid)) }
      (true, m2.save)

/-! ### Lemmas about the keyed-collection helpers -/

theorem findKeyed_replaceKeyed {α : Type} (key : α → String) (l : List α) (s : String)
    (a : α) (ha : (key a == s) = true) :
    findKeyed key (replaceKeyed key l s a) s = (findKeyed key l s).map (fun _ => a) := by
  induction l with
  | nil => rfl
  | cons x xs ih =>
      simp only [replaceKeyed, List.map_cons] at *
      unfold findKeyed at *
      by_cases hx : (key x == s) = true
      · rw [if_pos hx, List.find?_cons_of_pos (p := fun y => key y == s) _ ha,
          List.find?_cons_of_pos (p := fun y => key y == s) _ hx]
        rfl
      · rw [if_neg hx, List.find?_cons_of_neg (p := fun y => key y == s) _ hx,
          List.find?_cons_of_neg (p := fun y => key y == s) _ hx]
        exact ih

theorem mem_insertKeyed {α : Type} (key : α → String) (l : List α) (a x : α)
    (hx : x ∈ insertKeyed key l a) : x ∈ l ∨ x = a := by
  unfold insertKeyed at hx
  by_cases h : l.any (fun y => key y == key a) = true
  · rw [if_pos h] at hx
    rcases List.mem_map.mp hx with ⟨y, hy, hxy⟩
    by_cases hk : (key y == key a) = true
    · rw [if_pos hk] at hxy
      exact Or.inr hxy.symm
    · rw [if_neg hk] at hxy
      exact Or.inl (hxy ▸ hy)
  · rw [if_neg h] at hx
    rcases List.mem_append.mp hx with h1 | h1
    · exact Or.inl h1
    · exact Or.inr (by simpa using h1)

theorem mem_replaceKeyed {α : Type} (key : α → String) (l : List α) (s : String)
    (a x : α) (hx : x ∈ replaceKeyed key l s a) : x ∈ l ∨ x = a := by
  unfold replaceKeyed at hx
  rcases List.mem_map.mp hx with ⟨y, hy, hxy⟩
  by_cases hk : (key y == s) = true
  · rw [if_pos hk] at hxy
    exact Or.inr hxy.symm
  · rw [if_neg hk] at hxy
    exact Or.inl (hxy ▸ hy)

theorem insertKeyed_of_not_mem {α : Type} (key : α → String) (l : List α) (a : α)
    (h : key a ∉ l.map key) : insertKeyed key l a = l ++ [a] := by
  unfold insertKeyed
  rw [if_neg]
  intro hc
  rcases List.any_eq_true.mp hc with ⟨x, hxl, hxa⟩
  exact h (List.mem_map.mpr ⟨x, hxl, eq_of_beq hxa⟩)

theorem findKeyed_insertKeyed_self {α : Type} (key : α → String) (l : List α) (a : α) :
    findKeyed key (insertKeyed key l a) (key a) = some a := by
  unfold insertKeyed
  by_cases h : l.any (fun y => key y == key a) = true
  · rw [if_pos h]
    have hrepl : List.map (fun x => if key x == key a then a else x) l
        = replaceKeyed key l (key a) a := rfl
    rw [hrepl, findKeyed_replaceKeyed key l (key a) a (by simp)]
    rcases List.any_eq_true.mp h with ⟨x, hxl, hxa⟩
    have hsome : (findKeyed key l (key a)).isSome := by
      unfold findKeyed
      rw [List.find?_isSome]
      exact ⟨x, hxl, hxa⟩
    rcases Option.isSome_iff_exists.mp hsome with ⟨b, hb⟩
    rw [hb]
    rfl
  · rw [if_neg h]
    unfold findKeyed
    have hnone : l.find? (fun x => key x == key a) = none := by
      rw [List.find?_eq_none]
      intro x hxl hxa
      exact h (List.any_eq_true.mpr ⟨x, hxl, hxa⟩)
    rw [List.find?_append, hnone, Option.none_or]
    simp

/-! ### Lemmas about Hotel validation and serialisation -/

theorem validateB_iff (h : Hotel) : h.validateB = true ↔
    (pyStripEmpty h.name = false ∧ pyStripEmpty h.address = false ∧
     0 < h.total_rooms ∧ 0 ≤ h.rooms_available ∧
     h.rooms_available ≤ h.total_rooms) := by
  simp [Hotel.validateB, Bool.and_eq_true, and_assoc]

theorem mkHotel_validate {n a : String} {t ra : Int} {hid : String} {h : Hotel}
    (hmk : mkHotel n a t ra hid = some h) : h.validateB = true := by
  unfold mkHotel at hmk
  by_cases hv : Hotel.validateB ⟨n, a, t, if ra = -1 then t else ra, hid⟩ = true
  · rw [if_pos hv] at hmk
    cases hmk
    exact hv
  · rw [if_neg hv] at hmk
    cases hmk

theorem fromDict_validate {r : HotelRecord} {h : Hotel}
    (hfd : Hotel.fromDict r = some h) : h.validateB = true := by
  unfold Hotel.fromDict at hfd
  rcases r with ⟨n, a, t, ra, hid⟩
  cases n <;> cases a <;> cases t <;> cases hid <;> simp_all
  exact mkHotel_validate hfd

theorem fromDict_toDict {h : Hotel} (hv : h.validateB = true) :
    Hotel.fromDict (Hotel.toDict h) = some h := by
  have hra : ¬(h.rooms_available = -1) := by
    rcases (validateB_iff h).mp hv with ⟨-, -, -, h4, -⟩
    intro hc
    rw [hc] at h4
    norm_num at h4
  show mkHotel h.name h.address h.total_rooms
      ((some h.rooms_available).getD h.total_rooms) h.hotel_id = some h
  unfold mkHotel
  simp only [Option.getD_some, if_neg hra]
  rw [if_pos]
  exact hv

/-! ### Lemmas about the hotel manager operations -/

theorem getHotel_save (m : HotelMgr) (hid : String) :
    (HotelMgr.save m).getHotel hid = m.getHotel hid := rfl

theorem hotel_id_of_getHotel {m : HotelMgr} {hid : String} {h : Hotel}
    (hf : m.getHotel hid = some h) : (h.hotel_id == hid) = true := by
  have hf' : m.hotels.find? (fun x => x.hotel_id == hid) = some h := hf
  have h2 := List.find?_some hf'
  exact h2

theorem reserveRoom_found {m : HotelMgr} {hid : String} {h : Hotel}
    (hf : m.getHotel hid = some h) (hpos : 0 < h.rooms_available) :
    (m.reserveRoom hid).1 = true ∧
    (m.reserveRoom hid).2.getHotel hid =
      some { h with rooms_available := h.rooms_available - 1 } := by
  unfold HotelMgr.reserveRoom
  rw [hf]
  dsimp only
  rw [if_neg (by omega : ¬ h.rooms_available ≤ 0)]
  refine ⟨rfl, ?_⟩
  show (HotelMgr.save _).getHotel hid = _
  rw [getHotel_save]
  show findKeyed Hotel.hotel_id
      (replaceKeyed Hotel.hotel_id m.hotels hid
        { h with rooms_available := h.rooms_available - 1 }) hid = _
  rw [findKeyed_replaceKeyed Hotel.hotel_id m.hotels hid
    { h with rooms_available := h.rooms_available - 1 }
    (show ((h.hotel_id : String) == hid) = true from hotel_id_of_getHotel hf)]
  rw [show findKeyed Hotel.hotel_id m.hotels hid = some h from hf]
  rfl

theorem reserveRoom_empty {m : HotelMgr} {hid : String} {h : Hotel}
    (hf : m.getHotel hid = some h) (hz : h.rooms_available ≤ 0) :
    m.reserveRoom hid = (false, m) := by
  unfold HotelMgr.reserveRoom
  rw [hf]
  dsimp only
  rw [if_pos hz]

theorem cancelRoom_found {m : HotelMgr} {hid : String} {h : Hotel}
    (hf : m.getHotel hid = some h) (hlt : h.rooms_available < h.total_rooms) :
    (m.cancelRoom hid).1 = true ∧
    (m.cancelRoom hid).2.getHotel hid =
      some { h with rooms_available := h.rooms_available + 1 } := by
  unfold HotelMgr.cancelRoom
  rw [hf]
  dsimp only
  rw [if_neg (by omega : ¬ h.rooms_available ≥ h.total_rooms)]
  refine ⟨rfl, ?_⟩
  show (HotelMgr.save _).getHotel hid = _
  rw [getHotel_save]
  show findKeyed Hotel.hotel_id
      (replaceKeyed Hotel.hotel_id m.hotels hid
        { h with rooms_available := h.rooms_available + 1 }) hid = _
  rw [findKeyed_replaceKeyed Hotel.hotel_id m.hotels hid
    { h with rooms_available := h.rooms_available + 1 }
    (show ((h.hotel_id : String) == hid) = true from hotel_id_of_getHotel hf)]
  rw [show findKeyed Hotel.hotel_id m.hotels hid = some h from hf]
  rfl

theorem cancelRoom_full {m : HotelMgr} {hid : String} {h : Hotel}
    (hf : m.getHotel hid = some h) (hge : h.rooms_available ≥ h.total_rooms) :
    m.cancelRoom hid = (false, m) := by
  unfold HotelMgr.cancelRoom
  rw [hf]
  dsimp only
  rw [if_pos hge]

/-! ### The inventory invariant -/

/-- The spec's hotel invariant: `0 <= rooms_available <= total_rooms`. -/
def hotelInv (h : Hotel) : Prop :=
  0 ≤ h.rooms_available ∧ h.rooms_available ≤ h.total_rooms

instance (h : Hotel) : Decidable (hotelInv h) := by
  unfold hotelInv; infer_instance

/-- The invariant for every hotel held by a manager. -/
def mgrInv (m : HotelMgr) : Prop := ∀ h ∈ m.hotels, hotelInv h

instance (m : HotelMgr) : Decidable (mgrInv m) := by
  unfold mgrInv; infer_instance

theorem hotelInv_of_validateB {h : Hotel} (hv : h.validateB = true) : hotelInv h := by
  rcases (validateB_iff h).mp hv with ⟨-, -, -, h4, h5⟩
  exact ⟨h4, h5⟩

/-! ### Lemmas about loading -/

theorem validate_of_mem_foldl (recs : List HotelRecord) :
    ∀ (acc : List Hotel), (∀ h ∈ acc, h.validateB = true) →
    ∀ h ∈ recs.foldl loadStep acc, h.validateB = true := by
  induction recs with
  | nil => intro acc hacc h hh; exact hacc h hh
  | cons r rest ih =>
      intro acc hacc h hh
      simp only [List.foldl_cons] at hh
      refine ih (loadStep acc r) ?_ h hh
      intro x hx
      unfold loadStep at hx
      cases hfd : Hotel.fromDict r with
      | none => rw [hfd] at hx; exact hacc x hx
      | some h0 =>
          rw [hfd] at hx
          rcases mem_insertKeyed _ _ _ _ hx with h1 | h1
          · exact hacc x h1
          · rw [h1]; exact fromDict_validate hfd

theorem validate_of_mem_load {recs : List HotelRecord} {h : Hotel}
    (hh : h ∈ loadHotels recs) : h.validateB = true :=
  validate_of_mem_foldl recs [] (by simp) h hh

theorem foldl_load_append (recs : List HotelRecord) :
    ∀ (acc : List Hotel),
    ((acc ++ recs.filterMap Hotel.fromDict).map Hotel.hotel_id).Nodup →
    recs.foldl loadStep acc = acc ++ recs.filterMap Hotel.fromDict := by
  induction recs with
  | nil => intro acc _; simp
  | cons r rest ih =>
      intro acc hnd
      cases hfd : Hotel.fromDict r with
      | none =>
          have hstep : loadStep acc r = acc := by unfold loadStep; rw [hfd]
          have hfm : (r :: rest).filterMap Hotel.fromDict
              = rest.filterMap Hotel.fromDict := by
            rw [List.filterMap_cons_none hfd]
          rw [hfm] at hnd ⊢
          rw [List.foldl_cons, hstep]
          exact ih acc hnd
      | some h0 =>
          have hstep : loadStep acc r = insertKeyed Hotel.hotel_id acc h0 := by
            unfold loadStep; rw [hfd]
          have hfm : (r :: rest).filterMap Hotel.fromDict
              = h0 :: rest.filterMap Hotel.fromDict := by
            rw [List.filterMap_cons_some hfd]
          rw [hfm] at hnd ⊢
          have hnotin : h0.hotel_id ∉ acc.map Hotel.hotel_id := by
            rw [List.map_append] at hnd
            have hdisj := (List.nodup_append.mp hnd).2.2
            intro hc
            exact hdisj hc (by simp)
          rw [List.foldl_cons, hstep, insertKeyed_of_not_mem _ _ _ hnotin]
          rw [ih (acc ++ [h0]) (by rw [List.append_assoc, List.singleton_append]; exact hnd)]
          rw [List.append_assoc, List.singleton_append]

theorem filterMap_fromDict_toDict {hs : List Hotel}
    (hv : ∀ h ∈ hs, h.validateB = true) :
    (hs.map Hotel.toDict).filterMap Hotel.fromDict = hs := by
  induction hs with
  | nil => rfl
  | cons h rest ih =>
      rw [List.map_cons, List.filterMap_cons_some (fromDict_toDict (hv h (by simp)))]
      rw [ih (fun x hx => hv x (by simp [hx]))]

/-! ### Lemmas about `pySplit` and the email check -/

theorem pySplit_ne_nil (c : Char) (l : List Char) : pySplit c l ≠ [] := by
  cases l with
  | nil => simp [pySplit]
  | cons a rest =>
      simp only [pySplit]
      by_cases h : a = c
      · rw [if_pos h]; simp
      · rw [if_neg h]; simp

theorem pySplit_of_not_mem {c : Char} {l : List Char} (h : c ∉ l) : pySplit c l = [l] := by
  induction l with
  | nil => rfl
  | cons a rest ih =>
      have ha : ¬ a = c := fun hc => h (by simp [hc])
      have hr : c ∉ rest := fun hc => h (List.mem_cons_of_mem a hc)
      simp only [pySplit]
      rw [if_neg ha, ih hr]
      simp

theorem two_le_pySplit_length {c : Char} {l : List Char} (h : c ∈ l) :
    2 ≤ (pySplit c l).length := by
  induction l with
  | nil => cases h
  | cons a rest ih =>
      simp only [pySplit]
      by_cases ha : a = c
      · rw [if_pos ha]
        have h1 : 1 ≤ (pySplit c rest).length := by
          cases hh : pySplit c rest with
          | nil => exact absurd hh (pySplit_ne_nil c rest)
          | cons x xs => simp
        simpa using h1
      · rw [if_neg ha]
        have hr : c ∈ rest :=
          (List.mem_cons.mp h).resolve_left (fun hc => ha hc.symm)
        have h2 := ih hr
        cases hh : pySplit c rest with
        | nil => exact absurd hh (pySplit_ne_nil c rest)
        | cons x xs =>
            rw [hh] at h2
            simpa using h2

/-- The suffix of a character list after the last occurrence of `c`
(the whole list when `c` does not occur), defined by direct recursion:
an independent description of `split(c)[-1]`. -/
def suffixAfterLast (c : Char) : List Char → List Char
  | [] => []
  | a :: rest =>
      if c ∈ rest then suffixAfterLast c rest
      else if a = c then rest
      else a :: rest

theorem suffixAfterLast_of_not_mem {c : Char} {l : List Char} (h : c ∉ l) :
    suffixAfterLast c l = l := by
  cases l with
  | nil => rfl
  | cons a rest =>
      have hr : c ∉ rest := fun hc => h (List.mem_cons_of_mem a hc)
      have ha : ¬ a = c := fun hc => h (by simp [hc])
      unfold suffixAfterLast
      rw [if_neg hr, if_neg ha]

theorem getLastD_cons_irrel {α : Type} (y : α) (ys : List α) (d1 d2 : α) :
    (y :: ys).getLastD d1 = (y :: ys).getLastD d2 := by
  simp only [List.getLastD_cons]

theorem suffixAfterLast_cons (c a : Char) (rest : List Char) :
    suffixAfterLast c (a :: rest) =
      if c ∈ rest then suffixAfterLast c rest
      else if a = c then rest else a :: rest := rfl

theorem pySplit_getLastD (c : Char) (l : List Char) :
    (pySplit c l).getLastD [] = suffixAfterLast c l := by
  induction l with
  | nil => rfl
  | cons a rest ih =>
      simp only [pySplit]
      rw [suffixAfterLast_cons]
      by_cases ha : a = c
      · rw [if_pos ha]
        have h1 : ([] :: pySplit c rest).getLastD [] = (pySplit c rest).getLastD [] := by
          rw [List.getLastD_cons]
        rw [h1, ih]
        by_cases hm : c ∈ rest
        · rw [if_pos hm]
        · rw [if_neg hm, if_pos ha, suffixAfterLast_of_not_mem hm]
      · rw [if_neg ha]
        by_cases hm : c ∈ rest
        · have h2 := two_le_pySplit_length hm
          cases hh : pySplit c rest with
          | nil => exact absurd hh (pySplit_ne_nil c rest)
          | cons x xs =>
              rw [hh] at h2 ih
              cases xs with
              | nil => simp at h2
              | cons y ys =>
                  simp only [List.headD_cons, List.tail_cons]
                  rw [List.getLastD_cons, getLastD_cons_irrel y ys (a :: x) x]
                  have hx : (x :: y :: ys).getLastD [] = (y :: ys).getLastD x := by
                    rw [List.getLastD_cons]
                  rw [← hx, ih, if_pos hm]
        · rw [pySplit_of_not_mem hm, if_neg hm, if_neg ha]
          simp

theorem emailOkL_iff (l : List Char) :
    emailOkL l = true ↔ ('@' ∈ l ∧ '.' ∈ suffixAfterLast '@' l) := by
  unfold emailOkL
  rw [pySplit_getLastD]
  simp

/-! ### Lemmas about reservation construction -/

theorem mkReservation_badDates {cid hid ci co rid : String}
    (hbad : ∀ a b, parseDate ci = some a → parseDate co = some b → dateLe b a = true) :
    mkReservation cid hid ci co rid = none := by
  unfold mkReservation
  dsimp only
  rw [if_neg]
  intro hv
  unfold Reservation.validateB at hv
  dsimp only at hv
  simp only [Bool.and_eq_true] at hv
  obtain ⟨-, hc⟩ := hv
  cases hci : parseDate ci with
  | none =>
      rw [hci] at hc
      cases hco : parseDate co with
      | none => rw [hco] at hc; simp at hc
      | some b => rw [hco] at hc; simp at hc
  | some a =>
      rw [hci] at hc
      cases hco : parseDate co with
      | none => rw [hco] at hc; simp at hc
      | some b =>
          rw [hco] at hc
          simp only [Bool.not_eq_true'] at hc
          rw [hbad a b hci hco] at hc
          cases hc

theorem mkReservation_some {cid hid ci co rid : String} {r : Reservation}
    (h : mkReservation cid hid ci co rid = some r) :
    r = ⟨cid, hid, ci, co, rid⟩ := by
  unfold mkReservation at h
  dsimp only at h
  by_cases hv : Reservation.validateB ⟨cid, hid, ci, co, rid⟩ = true
  · rw [if_pos hv] at h
    exact (Option.some_inj.mp h).symm
  · rw [if_neg hv] at h
    cases h

/-! ### Lemmas about the reservation manager -/

theorem resSave_hotelMgr (m : ResMgr) : (ResMgr.save m).hotelMgr = m.hotelMgr := rfl

theorem resSave_reservations (m : ResMgr) :
    (ResMgr.save m).reservations = m.reservations := rfl

theorem createReservation_ok {m : ResMgr} {hm : HotelMgr} {h : Hotel}
    {cid hid ci co rid : String} {r : Reservation} {m' : ResMgr}
    (hmgr : m.hotelMgr = some hm) (hfind : hm.getHotel hid = some h)
    (hcr : m.createReservation cid hid ci co rid = (some r, m')) :
    0 < h.rooms_available ∧ r = ⟨cid, hid, ci, co, rid⟩ ∧
    m'.hotelMgr = some (hm.reserveRoom hid).2 ∧
    m'.reservations = insertKeyed Reservation.reservation_id m.reservations r := by
  unfold ResMgr.createReservation at hcr
  by_cases hcc : m.custCheck cid = false
  · rw [if_pos hcc] at hcr
    simp at hcr
  · rw [if_neg hcc, hmgr] at hcr
    dsimp only at hcr
    rw [hfind] at hcr
    rw [if_neg (by simp : ¬ ((some h).isNone = true))] at hcr
    by_cases hpos : h.rooms_available ≤ 0
    · rw [reserveRoom_empty hfind hpos] at hcr
      simp at hcr
    · rw [(reserveRoom_found hfind (by omega)).1] at hcr
      rw [if_neg (by simp)] at hcr
      cases hmk : mkReservation cid hid ci co rid with
      | none => rw [hmk] at hcr; simp at hcr
      | some r0 =>
          rw [hmk] at hcr
          dsimp only at hcr
          rw [Prod.mk.injEq] at hcr
          obtain ⟨h1, h3⟩ := hcr
          have h2 : r0 = r := Option.some_inj.mp h1
          subst h2
          refine ⟨by omega, mkReservation_some hmk, ?_, ?_⟩
          · rw [← h3]; rfl
          · rw [← h3]; rfl

/-! ### Concrete fixtures used by witnesses and counterexamples -/

def demoH : Hotel := ⟨"Sol", "Calle 1", 2, 2, "h1"⟩

def demoHM : HotelMgr := ⟨[demoH], [demoH.toDict]⟩

def demoEmptyH : Hotel := ⟨"Luna", "Calle 2", 3, 0, "h2"⟩

def demoEmptyHM : HotelMgr := ⟨[demoEmptyH], [demoEmptyH.toDict]⟩

def demoH3 : Hotel := ⟨"Mar", "Calle 3", 5, 4, "h3"⟩

def demoPair : HotelMgr := ⟨[demoH, demoH3], []⟩

def demoBadUpd : HotelUpdate := ⟨none, none, some 0, none⟩

def demoResMgr : ResMgr := ⟨[], [], some demoHM, none⟩

def goodRec : HotelRecord := ⟨some "Sol", some "Calle 1", some 3, some 3, some "g1"⟩

def goodHotel : Hotel := ⟨"Sol", "Calle 1", 3, 3, "g1"⟩

def badRec : HotelRecord := ⟨some "Luna", some "Calle 2", some 0, none, some "g2"⟩

/-! ### Claim theorems -/

theorem hotelInv_mk (h : Hotel) (d : Int) (h0 : 0 ≤ d) (h1 : d ≤ h.total_rooms) :
    hotelInv { h with rooms_available := d } := ⟨h0, h1⟩

/-- C3: for every hotel in the collection and every mutating operation of
the hotel manager (create, modify, reserve_room, cancel_room), the
invariant `0 <= rooms_available <= total_rooms` holds after the
operation completes (assuming it held before). -/
theorem hotelMgr_invariant_preserved (m : HotelMgr) (hinv : mgrInv m) :
    (∀ (n a : String) (t : Int) (hid : String) (res : Hotel × HotelMgr),
        m.createHotel n a t hid = Except.ok res → mgrInv res.2) ∧
    (∀ (hid : String) (u : HotelUpdate), mgrInv (m.modifyHotel hid u).2) ∧
    (∀ hid : String, mgrInv (m.reserveRoom hid).2) ∧
    (∀ hid : String, mgrInv (m.cancelRoom hid).2) := by
  refine ⟨?_, ?_, ?_, ?_⟩
  · intro n a t hid res hok
    unfold HotelMgr.createHotel at hok
    cases hmk : mkHotel n a t (-1) hid with
    | none => rw [hmk] at hok; cases hok
    | some h0 =>
        rw [hmk] at hok
        cases hok
        intro x hx
        rcases mem_insertKeyed _ _ _ _ hx with h1 | h1
        · exact hinv x h1
        · rw [h1]
          exact hotelInv_of_validateB (mkHotel_validate hmk)
  · intro hid u
    unfold HotelMgr.modifyHotel
    cases hf : m.getHotel hid with
    | none => exact hinv
    | some h =>
        dsimp only
        by_cases hv : (applyUpdate h u).validateB = true
        · rw [if_pos hv]
          intro x hx
          rcases mem_replaceKeyed _ _ _ _ _ hx with h1 | h1
          · exact hinv x h1
          · rw [h1]
            exact hotelInv_of_validateB hv
        · rw [if_neg hv]
          intro x hx
          exact hotelInv_of_validateB (validate_of_mem_load hx)
  · intro hid
    unfold HotelMgr.reserveRoom
    cases hf : m.getHotel hid with
    | none => exact hinv
    | some h =>
        dsimp only
        by_cases hz : h.rooms_available ≤ 0
        · rw [if_pos hz]; exact hinv
        · rw [if_neg hz]
          intro x hx
          rcases mem_replaceKeyed _ _ _ _ _ hx with h1 | h1
          · exact hinv x h1
          · rw [h1]
            obtain ⟨ha, hb⟩ := hinv h (List.mem_of_find?_eq_some hf)
            exact hotelInv_mk h _ (by omega) (by omega)
  · intro hid
    unfold HotelMgr.cancelRoom
    cases hf : m.getHotel hid with
    | none => exact hinv
    | some h =>
        dsimp only
        by_cases hz : h.rooms_available ≥ h.total_rooms
        · rw [if_pos hz]; exact hinv
        · rw [if_neg hz]
          intro x hx
          rcases mem_replaceKeyed _ _ _ _ _ hx with h1 | h1
          · exact hinv x h1
          · rw [h1]
            obtain ⟨ha, hb⟩ := hinv h (List.mem_of_find?_eq_some hf)
            exact hotelInv_mk h _ (by omega) (by omega)

theorem hotelMgr_invariant_preserved_witness :
    mgrInv ((demoHM.reserveRoom "h1").2) :=
  (hotelMgr_invariant_preserved demoHM (by decide)).2.2.1 "h1"

/-- C5: reserving on a hotel with no rooms available fails and leaves the
manager state unchanged; releasing on a hotel already at full capacity
fails and leaves the manager state unchanged. -/
theorem reserve_cancel_boundary_fail (m : HotelMgr) (hid : String) (h : Hotel)
    (hf : m.getHotel hid = some h) :
    (h.rooms_available = 0 → m.reserveRoom hid = (false, m)) ∧
    (h.rooms_available = h.total_rooms → m.cancelRoom hid = (false, m)) := by
  constructor
  · intro hz
    exact reserveRoom_empty hf (by omega)
  · intro he
    exact cancelRoom_full hf (by omega)

theorem reserve_cancel_boundary_fail_witness :
    demoEmptyHM.reserveRoom "h2" = (false, demoEmptyHM) ∧
    demoHM.cancelRoom "h1" = (false, demoHM) :=
  ⟨(reserve_cancel_boundary_fail demoEmptyHM "h2" demoEmptyH (by decide)).1 (by decide),
   (reserve_cancel_boundary_fail demoHM "h1" demoH (by decide)).2 (by decide)⟩

/-- C6: a modify call on an existing hotel whose updated entity fails
validation returns failure and leaves both the in-memory collection and
the backing store exactly as before (the partial mutation is rolled
back by reloading and is never persisted); stated for a manager whose
memory is in sync with its store, which every public mutation
maintains. -/
theorem modifyHotel_invalid_rollback (m : HotelMgr) (hid : String) (h : Hotel)
    (u : HotelUpdate) (hf : m.getHotel hid = some h)
    (hbad : (applyUpdate h u).validateB = false)
    (hsync : m.hotels = loadHotels m.store) :
    m.modifyHotel hid u = (none, m) := by
  unfold HotelMgr.modifyHotel
  rw [hf]
  dsimp only
  rw [if_neg (by simp [hbad])]
  rw [← hsync]

theorem modifyHotel_invalid_rollback_witness :
    demoHM.modifyHotel "h1" demoBadUpd = (none, demoHM) :=
  modifyHotel_invalid_rollback demoHM "h1" demoH demoBadUpd
    (by decide) (by decide) (by decide)

/-- C4 counterexample: creating a hotel with an empty name does not
surface as a failed-operation result from the manager; the ValueError
raised by validation escapes `create_hotel` (modelled as
`Except.error`), contradicting the claim that validation failures
never propagate past the manager boundary. -/
theorem createHotel_invalid_raises_counterexample :
    demoHM.createHotel "" "Avenida 9" 5 "h9" = Except.error () := rfl

/-- C4 (amended): for every hotel-creation call with an empty
(all-whitespace) name or address or non-positive total_rooms, no hotel
is created or persisted and the ValueError propagates out of
`create_hotel` to the caller (the console layer catches it). -/
theorem createHotel_invalid_raises (m : HotelMgr) (n a : String) (t : Int)
    (hid : String)
    (hbad : pyStripEmpty n = true ∨ pyStripEmpty a = true ∨ t ≤ 0) :
    m.createHotel n a t hid = Except.error () := by
  have hval : ¬ (Hotel.validateB ⟨n, a, t, t, hid⟩ = true) := by
    intro hv
    rcases (validateB_iff _).mp hv with ⟨h1, h2, h3, -, -⟩
    dsimp only at h1 h2 h3
    rcases hbad with hb | hb | hb
    · rw [hb] at h1; cases h1
    · rw [hb] at h2; cases h2
    · omega
  have hmk : mkHotel n a t (-1) hid = none := by
    unfold mkHotel
    dsimp only
    rw [show (if (-1 : Int) = -1 then t else (-1 : Int)) = t from if_pos rfl]
    rw [if_neg hval]
  unfold HotelMgr.createHotel
  rw [hmk]

theorem createHotel_invalid_raises_witness :
    demoHM.createHotel "Mar" " " 3 "h5" = Except.error () :=
  createHotel_invalid_raises demoHM "Mar" " " 3 "h5" (Or.inr (Or.inl (by decide)))

/-- C7 counterexample: `"a@b@c.com"` contains two `"@"` characters, so
it does not consist of exactly a local part and a domain separated by
`"@"`, yet customer validation accepts it. -/
theorem email_multiple_at_accepted :
    Customer.validateB ⟨"Ana", "a@b@c.com", "c1"⟩ = true ∧
    (pySplit '@' ("a@b@c.com".data)).length ≠ 2 := ⟨by decide, by decide⟩

/-- C7 (amended): customer validation accepts iff the name is non-empty
after stripping and the email contains at least one `"@"` with a `"."`
somewhere after the LAST `"@"`; strings with several `"@"` can be
accepted. -/
theorem email_accept_characterization (c : Customer) :
    Customer.validateB c = true ↔
      (pyStripEmpty c.name = false ∧ '@' ∈ c.email.data ∧
       '.' ∈ suffixAfterLast '@' c.email.data) := by
  unfold Customer.validateB
  simp only [Bool.and_eq_true, Bool.not_eq_true']
  rw [show emailOk c.email = emailOkL c.email.data from rfl, emailOkL_iff]

/-- C8: writing a manager's collection of valid hotels (with pairwise
distinct ids, as a dict keyed by id guarantees) to the store and
reloading yields exactly the same hotels, and the stored record count
equals the hotel count. -/
theorem save_load_roundtrip (m : HotelMgr)
    (hv : ∀ h ∈ m.hotels, h.validateB = true)
    (hnd : (m.hotels.map Hotel.hotel_id).Nodup) :
    loadHotels (HotelMgr.save m).store = m.hotels ∧
    (HotelMgr.save m).store.length = m.hotels.length := by
  have hstore : (HotelMgr.save m).store = m.hotels.map Hotel.toDict := rfl
  constructor
  · rw [hstore]
    unfold loadHotels
    have hfm : (m.hotels.map Hotel.toDict).filterMap Hotel.fromDict = m.hotels :=
      filterMap_fromDict_toDict hv
    have h2 := foldl_load_append (m.hotels.map Hotel.toDict) []
    rw [hfm] at h2
    simpa using h2 (by simpa using hnd)
  · rw [hstore, List.length_map]

theorem save_load_roundtrip_witness :
    loadHotels (HotelMgr.save demoPair).store = demoPair.hotels ∧
    (HotelMgr.save demoPair).store.length = demoPair.hotels.length :=
  save_load_roundtrip demoPair (by decide) (by decide)

/-- C9: a record that fails to parse is skipped while loading continues
for the remaining records (removing such a record from the store does
not change the loaded result), and loading one well-formed and one
malformed record yields exactly the one well-formed entity. -/
theorem load_skips_malformed :
    (∀ (recs1 recs2 : List HotelRecord) (bad : HotelRecord),
        Hotel.fromDict bad = none →
        loadHotels (recs1 ++ bad :: recs2) = loadHotels (recs1 ++ recs2)) ∧
    loadHotels [goodRec, badRec] = [goodHotel] := by
  constructor
  · intro recs1 recs2 bad hbad
    unfold loadHotels
    rw [List.foldl_append, List.foldl_append, List.foldl_cons]
    have hstep : loadStep (recs1.foldl loadStep []) bad = recs1.foldl loadStep [] := by
      unfold loadStep; rw [hbad]
    rw [hstep]
  · decide

theorem load_skips_malformed_witness :
    loadHotels ([goodRec] ++ badRec :: [goodRec]) = loadHotels ([goodRec] ++ [goodRec]) ∧
    loadHotels [goodRec, badRec] = [goodHotel] :=
  ⟨load_skips_malformed.1 [goodRec] [goodRec] badRec (by decide),
   load_skips_malformed.2⟩

theorem mkHotel_sentinel (n a : String) (t : Int) (hid : String)
    (h1 : pyStripEmpty n = false) (h2 : pyStripEmpty a = false) (h3 : 0 < t) :
    mkHotel n a t (-1) hid = some ⟨n, a, t, t, hid⟩ := by
  unfold mkHotel
  dsimp only
  rw [show (if (-1 : Int) = -1 then t else (-1 : Int)) = t from if_pos rfl]
  rw [if_pos ((validateB_iff _).mpr
    ⟨h1, h2, h3, by dsimp only; omega, by dsimp only; omega⟩)]

/-- C10: constructing a Hotel with rooms_available = -1 does not fail
validation: -1 is the unset sentinel and is replaced by total_rooms, so
a stored record carrying rooms_available = -1 loads as a fully
available hotel instead of being skipped; every other negative value is
rejected. -/
theorem rooms_available_sentinel :
    (∀ (n a : String) (t : Int) (hid : String),
        pyStripEmpty n = false → pyStripEmpty a = false → 0 < t →
        mkHotel n a t (-1) hid = some ⟨n, a, t, t, hid⟩) ∧
    (∀ (n a : String) (t : Int) (hid : String),
        pyStripEmpty n = false → pyStripEmpty a = false → 0 < t →
        Hotel.fromDict ⟨some n, some a, some t, some (-1), some hid⟩
          = some ⟨n, a, t, t, hid⟩) ∧
    (∀ (n a : String) (t ra : Int) (hid : String), ra < 0 → ra ≠ -1 →
        mkHotel n a t ra hid = none) := by
  refine ⟨?_, ?_, ?_⟩
  · intro n a t hid h1 h2 h3
    exact mkHotel_sentinel n a t hid h1 h2 h3
  · intro n a t hid h1 h2 h3
    show mkHotel n a t ((some (-1 : Int)).getD t) hid = _
    rw [Option.getD_some]
    exact mkHotel_sentinel n a t hid h1 h2 h3
  · intro n a t ra hid h1 h2
    unfold mkHotel
    dsimp only
    rw [show (if ra = -1 then t else ra) = ra from if_neg h2]
    rw [if_neg]
    intro hv
    rcases (validateB_iff _).mp hv with ⟨-, -, -, h4, -⟩
    dsimp only at h4
    omega

theorem rooms_available_sentinel_witness :
    mkHotel "Sol" "Calle 1" 4 (-1) "h7" = some ⟨"Sol", "Calle 1", 4, 4, "h7"⟩ ∧
    Hotel.fromDict ⟨some "Sol", some "Calle 1", some 4, some (-1), some "h7"⟩
      = some ⟨"Sol", "Calle 1", 4, 4, "h7"⟩ ∧
    mkHotel "Sol" "Calle 1" 4 (-2) "h7" = none :=
  ⟨rooms_available_sentinel.1 "Sol" "Calle 1" 4 "h7" (by decide) (by decide) (by decide),
   rooms_available_sentinel.2.1 "Sol" "Calle 1" 4 "h7" (by decide) (by decide) (by decide),
   rooms_available_sentinel.2.2 "Sol" "Calle 1" 4 (-2) "h7" (by decide) (by decide)⟩

/-- C2: a create_reservation call whose dates are unparsable or have
check_out <= check_in, against an attached hotel manager holding the
hotel with at least one room free (and within capacity), fails: no
reservation is returned or stored and the room decremented during the
attempt is released back, so rooms_available is unchanged end-to-end. -/
theorem createReservation_invalidDates_restores (m : ResMgr) (hm : HotelMgr)
    (h : Hotel) (cid hid ci co rid : String)
    (hmgr : m.hotelMgr = some hm)
    (hfind : hm.getHotel hid = some h)
    (hpos : 0 < h.rooms_available)
    (hcap : h.rooms_available ≤ h.total_rooms)
    (hbad : ∀ a b, parseDate ci = some a → parseDate co = some b → dateLe b a = true) :
    (m.createReservation cid hid ci co rid).1 = none ∧
    (m.createReservation cid hid ci co rid).2.reservations = m.reservations ∧
    ∃ (hm' : HotelMgr) (h' : Hotel),
      (m.createReservation cid hid ci co rid).2.hotelMgr = some hm' ∧
      hm'.getHotel hid = some h' ∧
      h'.rooms_available = h.rooms_available := by
  unfold ResMgr.createReservation
  by_cases hcc : m.custCheck cid = false
  · rw [if_pos hcc]
    exact ⟨rfl, rfl, hm, h, hmgr, hfind, rfl⟩
  · rw [if_neg hcc, hmgr]
    dsimp only
    rw [hfind, if_neg (by simp : ¬ ((some h).isNone = true))]
    rw [(reserveRoom_found hfind hpos).1, if_neg (by simp)]
    rw [mkReservation_badDates hbad]
    refine ⟨rfl, rfl, ?_⟩
    have hfind1 := (reserveRoom_found hfind hpos).2
    have hlt1 : ({ h with rooms_available := h.rooms_available - 1 }).rooms_available
        < ({ h with rooms_available := h.rooms_available - 1 }).total_rooms := by
      dsimp only
      omega
    refine ⟨((hm.reserveRoom hid).2.cancelRoom hid).2, _, rfl,
      (cancelRoom_found hfind1 hlt1).2, ?_⟩
    dsimp only
    omega

theorem createReservation_invalidDates_restores_witness :
    (demoResMgr.createReservation "c1" "h1" "2026-07-05" "2026-07-01" "r1").1 = none ∧
    (demoResMgr.createReservation "c1" "h1" "2026-07-05" "2026-07-01" "r1").2.reservations
      = demoResMgr.reservations ∧
    ∃ (hm' : HotelMgr) (h' : Hotel),
      (demoResMgr.createReservation "c1" "h1" "2026-07-05" "2026-07-01" "r1").2.hotelMgr
        = some hm' ∧
      hm'.getHotel "h1" = some h' ∧
      h'.rooms_available = demoH.rooms_available :=
  createReservation_invalidDates_restores demoResMgr demoHM demoH
    "c1" "h1" "2026-07-05" "2026-07-01" "r1" rfl (by decide) (by decide) (by decide)
    (by
      intro a b ha hb
      have h5 : parseDate "2026-07-05" = some (2026, 7, 5) := by decide
      have h1 : parseDate "2026-07-01" = some (2026, 7, 1) := by decide
      rw [h5] at ha
      rw [h1] at hb
      rw [(Option.some_inj.mp ha).symm, (Option.some_inj.mp hb).symm]
      decide)

/-- C1 counterexample: in a state whose hotel is already at full
capacity (rooms_available = total_rooms = 2), cancelling an existing
reservation for it succeeds (returns True) while the hotel's
rooms_available stays 2 instead of increasing by 1: a successful
cancel_reservation does not always increase the count. -/
theorem cancelReservation_full_counterexample :
    ((ResMgr.mk [⟨"c1", "h1", "2026-07-01", "2026-07-05", "r1"⟩]
        [Reservation.toDict ⟨"c1", "h1", "2026-07-01", "2026-07-05", "r1"⟩]
        (some demoHM) none).cancelReservation "r1").1 = true ∧
    (((ResMgr.mk [⟨"c1", "h1", "2026-07-01", "2026-07-05", "r1"⟩]
        [Reservation.toDict ⟨"c1", "h1", "2026-07-01", "2026-07-05", "r1"⟩]
        (some demoHM) none).cancelReservation "r1").2.hotelMgr.map
      (fun hmx => hmx.getHotel "h1")) = some (some demoH) ∧
    demoH.rooms_available = demoH.total_rooms ∧ demoH.rooms_available = 2 :=
  ⟨by decide, by decide, by decide, by decide⟩

/-- C1 (amended): with an attached hotel manager, every successful
create_reservation decreases the referenced hotel's rooms_available by
exactly 1; a successful cancel_reservation increases it by exactly 1
provided the reservation's hotel exists in the manager below full
capacity (cancellation also succeeds when the hotel is missing or
already full, but then the count is not changed — the release is best
effort); and a create followed by a cancel of that reservation restores
the hotel's original rooms_available. -/
theorem reservation_inventory_inverse :
    (∀ (m : ResMgr) (hm : HotelMgr) (h : Hotel) (cid hid ci co rid : String)
        (r : Reservation) (m' : ResMgr),
        m.hotelMgr = some hm → hm.getHotel hid = some h →
        m.createReservation cid hid ci co rid = (some r, m') →
        ∃ (hm' : HotelMgr) (h' : Hotel), m'.hotelMgr = some hm' ∧
          hm'.getHotel hid = some h' ∧
          h'.rooms_available = h.rooms_available - 1) ∧
    (∀ (m : ResMgr) (hm : HotelMgr) (r : Reservation) (rid : String) (h : Hotel),
        m.hotelMgr = some hm →
        findKeyed Reservation.reservation_id m.reservations rid = some r →
        hm.getHotel r.hotel_id = some h →
        h.rooms_available < h.total_rooms →
        (m.cancelReservation rid).1 = true ∧
        ∃ (hm' : HotelMgr) (h' : Hotel),
          (m.cancelReservation rid).2.hotelMgr = some hm' ∧
          hm'.getHotel r.hotel_id = some h' ∧
          h'.rooms_available = h.rooms_available + 1) ∧
    (∀ (m : ResMgr) (hm : HotelMgr) (h : Hotel) (cid hid ci co rid : String)
        (r : Reservation) (m' : ResMgr),
        m.hotelMgr = some hm → hm.getHotel hid = some h →
        h.rooms_available ≤ h.total_rooms →
        m.createReservation cid hid ci co rid = (some r, m') →
        (m'.cancelReservation r.reservation_id).1 = true ∧
        ∃ (hm' : HotelMgr) (h' : Hotel),
          (m'.cancelReservation r.reservation_id).2.hotelMgr = some hm' ∧
          hm'.getHotel hid = some h' ∧
          h'.rooms_available = h.rooms_available) := by
  refine ⟨?_, ?_, ?_⟩
  · intro m hm h cid hid ci co rid r m' hmgr hfind hcr
    obtain ⟨hpos, hr, hmgr', hres⟩ := createReservation_ok hmgr hfind hcr
    exact ⟨(hm.reserveRoom hid).2, _, hmgr', (reserveRoom_found hfind hpos).2, rfl⟩
  · intro m hm r rid h hmgr hfr hfh hlt
    unfold ResMgr.cancelReservation
    rw [hfr]
    dsimp only
    rw [hmgr]
    dsimp only
    exact ⟨rfl, (hm.cancelRoom r.hotel_id).2, _, rfl, (cancelRoom_found hfh hlt).2, rfl⟩
  · intro m hm h cid hid ci co rid r m' hmgr hfind hcap hcr
    obtain ⟨hpos, hr, hmgr', hres⟩ := createReservation_ok hmgr hfind hcr
    have hrid : r.hotel_id = hid := by rw [hr]
    have hfr : findKeyed Reservation.reservation_id m'.reservations r.reservation_id
        = some r := by
      rw [hres]
      exact findKeyed_insertKeyed_self Reservation.reservation_id m.reservations r
    have hfind1 := (reserveRoom_found hfind hpos).2
    have hlt1 : ({ h with rooms_available := h.rooms_available - 1 }).rooms_available
        < ({ h with rooms_available := h.rooms_available - 1 }).total_rooms := by
      dsimp only
      omega
    unfold ResMgr.cancelReservation
    rw [hfr]
    dsimp only
    rw [hmgr']
    dsimp only
    rw [hrid]
    refine ⟨rfl, ((hm.reserveRoom hid).2.cancelRoom hid).2, _, rfl,
      (cancelRoom_found hfind1 hlt1).2, ?_⟩
    dsimp only
    omega

theorem reservation_inventory_inverse_witness :
    (((demoResMgr.createReservation "c1" "h1" "2026-07-01" "2026-07-05" "r1").2).cancelReservation
        "r1").1 = true ∧
    ∃ (hm' : HotelMgr) (h' : Hotel),
      ((((demoResMgr.createReservation "c1" "h1" "2026-07-01" "2026-07-05" "r1").2).cancelReservation
          "r1").2).hotelMgr = some hm' ∧
      hm'.getHotel "h1" = some h' ∧
      h'.rooms_available = demoH.rooms_available :=
  reservation_inventory_inverse.2.2 demoResMgr demoHM demoH
    "c1" "h1" "2026-07-01" "2026-07-05" "r1"
    ⟨"c1", "h1", "2026-07-01", "2026-07-05", "r1"⟩
    (demoResMgr.createReservation "c1" "h1" "2026-07-01" "2026-07-05" "r1").2
    rfl (by decide) (by decide) (by decide)
